import Mathlib

/-!
Verification model for the BOM label-generator (`src/app.py`).

The Python program loads a spreadsheet, resolves loosely-named headers to five
logical fields with `difflib.get_close_matches` (cutoff 0.6, n=1), looks up the
rows matching a SKU, composes a fixed-layout label image, and serves it through
two Flask routes.  Every definition below is translated from the source file;
machine-level details that the claims do not touch (pixel contents of the PNG,
fonts) are abstracted into explicit records of the drawing and file-writing
operations the code performs.
-/

set_option maxRecDepth 100000

namespace Barcode

/-! ## difflib.SequenceMatcher (no junk: all strings here are far below the
autojunk threshold of 200 elements, and no explicit junk predicate is passed) -/

/-- Length of the common run of equal elements at the heads of two lists. -/
def commonRun : List Char → List Char → Nat
  | x :: xs, y :: ys => if x = y then commonRun xs ys + 1 else 0
  | _, _ => 0

/-- Size of the matching block starting at position `i` of `a` and `j` of `b`,
clipped to the window ends `ahi`, `bhi`. -/
def runAt (a b : List Char) (ahi bhi i j : Nat) : Nat :=
  min (commonRun (a.drop i) (b.drop j)) (min (ahi - i) (bhi - j))

/-- Model of `SequenceMatcher.find_longest_match` on the window `a[alo:ahi] × b[blo:bhi]`:
returns `(size, i, j)` of the longest matching block; among maximal blocks the
one starting earliest in `a`, then earliest in `b`, is returned (the documented
tie-break of difflib). -/
def findLongestMatch (a b : List Char) (alo ahi blo bhi : Nat) : Nat × Nat × Nat :=
  (List.range' alo (ahi - alo)).foldl
    (fun best i =>
      (List.range' blo (bhi - blo)).foldl
        (fun best j =>
          let k := runAt a b ahi bhi i j
          if best.1 < k then (k, i, j) else best)
        best)
    (0, alo, blo)

/-- Total size of the matching blocks of `SequenceMatcher.get_matching_blocks`:
recursively split around the longest match.  The recursion depth is bounded by
the window width, so the explicit `fuel` argument (always called with
`a.length + 1`) never runs out. -/
def matchTotalAux (a b : List Char) : Nat → Nat → Nat → Nat → Nat → Nat
  | 0, _, _, _, _ => 0
  | fuel + 1, alo, ahi, blo, bhi =>
    match findLongestMatch a b alo ahi blo bhi with
    | (0, _, _) => 0
    | (k + 1, i, j) =>
      (k + 1) + matchTotalAux a b fuel alo i blo j
              + matchTotalAux a b fuel (i + (k + 1)) ahi (j + (k + 1)) bhi

/-- Total number of matched elements between `a` and `b`. -/
def matchTotal (a b : List Char) : Nat :=
  matchTotalAux a b (a.length + 1) 0 a.length 0 b.length

/-- Model of `SequenceMatcher(None, x, w).ratio()`: `2*M / (len(x) + len(w))`, and `1`
when both strings are empty (difflib `_calculate_ratio`).  Built with
`Rat.divInt` (the same rational number as the division). -/
def ratio (x w : String) : ℚ :=
  if x.length + w.length = 0 then 1
  else Rat.divInt (2 * matchTotal x.data w.data) (x.length + w.length)

/-- The fixed similarity cutoff of `difflib.get_close_matches` as called in
`load_data` (0.6). -/
def cutoff : ℚ := Rat.divInt 6 10

/-- Python string comparison `x < y` (lexicographic on code points). -/
def pyStrLt : List Char → List Char → Bool
  | [], [] => false
  | [], _ :: _ => true
  | _ :: _, [] => false
  | c :: cs, d :: ds => if c < d then true else if d < c then false else pyStrLt cs ds

/-- One step of the scan of `get_close_matches`: keep the qualifying candidate
with the greatest `(ratio, string)` pair, mirroring
`heapq.nlargest(1, [(ratio(x), x) for x qualifying])` (ties on the ratio are
broken towards the lexicographically greater string, as Python tuple
comparison does). -/
def gcmStep (word : String) (best : Option (ℚ × String)) (x : String) :
    Option (ℚ × String) :=
  let r := ratio x word
  if r < cutoff then best
  else
    match best with
    | none => some (r, x)
    | some (rb, xb) =>
      if rb < r ∨ (rb = r ∧ pyStrLt xb.data x.data) then some (r, x) else some (rb, xb)

/-- Model of `difflib.get_close_matches(word, possibilities, n=1, cutoff=0.6)` restricted
to its first (and only) result, as used in `load_data`. -/
def getCloseMatch1 (word : String) (possibilities : List String) : Option String :=
  (possibilities.foldl (gcmStep word) none).map (fun p => p.2)

/-! ## Python string helpers (`str.strip`, `str.lower`, `str.upper`),
defined structurally over the character list -/

/-- Python `str.strip()`: drop whitespace from both ends. -/
def pyStrip (s : String) : String :=
  ⟨((s.data.dropWhile Char.isWhitespace).reverse.dropWhile Char.isWhitespace).reverse⟩

/-- Python `str.lower()` (ASCII range, which covers all strings compared here). -/
def pyLower (s : String) : String := ⟨s.data.map Char.toLower⟩

/-- Python `str.upper()` (ASCII range, which covers all strings compared here). -/
def pyUpper (s : String) : String := ⟨s.data.map Char.toUpper⟩

/-! ## `load_data`: the column resolver -/

/-- The alias table `required_cols` of `app.py` (insertion order preserved). -/
def requiredCols : List (String × List String) :=
  [("sku", ["sku", "item", "itemcode"]),
   ("bom_desc", ["bom description", "bomdesc", "description"]),
   ("bom_line", ["bom line description", "bomline", "line description"]),
   ("isbn", ["isbn"]),
   ("mrp", ["mrp"])]

/-- Header normalization of `load_data`:
`df.columns = df.columns.str.strip().str.lower()`. -/
def normalizeHeader (s : String) : String := pyLower (pyStrip s)

/-- The inner loop of `load_data` for one logical field: try the candidate
names in listed order; the first candidate with any qualifying match wins
(`break`), a field with no qualifying candidate stays unresolved. -/
def resolveField (options : List String) (headers : List String) : Option String :=
  match options with
  | [] => none
  | o :: rest =>
    match getCloseMatch1 (pyLower o) headers with
    | some h => some h
    | none => resolveField rest headers

/-- The map `col_map` as built by `load_data` over the (already normalized) header
list: an association list in the insertion order of `required_cols`. -/
def mkColMap (headers : List String) : List (String × String) :=
  requiredCols.filterMap (fun p => (resolveField p.2 headers).map (fun h => (p.1, h)))

/-! ## The loaded table -/

/-- A spreadsheet cell.  `str` is a text cell, `intVal` a numeric cell
(pandas renders it via `str()`), `nan` a blank cell (pandas `NaN`,
rendered `"nan"` by `astype(str)`). -/
inductive Cell where
  | str (s : String)
  | intVal (n : Int)
  | nan
  deriving DecidableEq

/-- The string representation `str(cell)` / `astype(str)` of a cell. -/
def Cell.toStr : Cell → String
  | .str s => s
  | .intVal n => toString n
  | .nan => "nan"

/-- One row of the loaded DataFrame: a mapping from (normalized) column name
to cell.  A key absent from the list models a column absent from the table. -/
abbrev Row := List (String × Cell)

/-- The loaded DataFrame: normalized column names plus the data rows. -/
structure Table where
  headers : List String
  rows : List Row
  deriving DecidableEq

/-- Python `str(row.get(key, "N/A"))`: the cell's string representation, or the
`"N/A"` default when the column is absent. -/
def rowGetStr (r : Row) (key : String) : String :=
  match r.lookup key with
  | some c => c.toStr
  | none => "N/A"

/-- Python `str(row[key])` for a column that exists in the table: a blank cell is
pandas `NaN` and stringifies to `"nan"`. -/
def skuCellStr (r : Row) (key : String) : String :=
  ((r.lookup key).getD Cell.nan).toStr

instance {ε α : Type} [DecidableEq ε] [DecidableEq α] : DecidableEq (Except ε α) := fun a b =>
  match a, b with
  | .error e, .error f =>
    if h : e = f then isTrue (by rw [h]) else isFalse (by intro hh; cases hh; exact h rfl)
  | .error _, .ok _ => isFalse (by intro hh; cases hh)
  | .ok _, .error _ => isFalse (by intro hh; cases hh)
  | .ok x, .ok y =>
    if h : x = y then isTrue (by rw [h]) else isFalse (by intro hh; cases hh; exact h rfl)

/-- Lines 49–56 of `generate_label` (also lines 120–128 of `index`): reload the
table, fail when it is empty or no `sku` column was resolved, filter the rows
whose stringified, upper-cased `sku` cell equals the upper-cased input, and
fail when no row matches. -/
def recordLookup (tbl : Table) (skuInput : String) : Except String (List Row) :=
  if tbl.rows.isEmpty || ((mkColMap tbl.headers).lookup "sku").isNone then
    .error "Excel file or SKU column missing."
  else
    let h := ((mkColMap tbl.headers).lookup "sku").getD ""
    let ms := tbl.rows.filter (fun r => pyUpper (skuCellStr r h) == pyUpper skuInput)
    if ms.isEmpty then .error "❌ SKU not found!"
    else .ok ms

/-! ## Label composition (`generate_label`, lines 48–102)

The drawing operations and file writes of the source are recorded explicitly:
`LabelData` keeps every text draw with its coordinates, and the file writes are
returned as an ordered list of `(filename, content)` pairs.  I/O failures are
modelled by a `failing` list of filenames whose write raises (the Python code
has no `try`/`except` around `code128.save` / `label.save`, so such an
exception escapes `generate_label`). -/

/-- Everything drawn on the 1200×891 label canvas that the claims mention,
plus the resolved field values. -/
structure LabelData where
  barcodeFilename : String
  labelFilename : String
  desc : String
  isbn : String
  mrp : String
  qty : Nat
  titleText : Int × Int × String
  contents : List (Int × Int × String)
  infoStartY : Nat
  infoTexts : List (Int × Int × String)
  skuText : Int × Int × String
  deriving DecidableEq

/-- Contents of the files the program writes. -/
inductive FileContent where
  | barcodePng (sku : String)
  | labelPng (d : LabelData)
  | pdfDoc (pageW pageH : Nat) (imgX imgY imgW imgH : Nat) (img : String)
  deriving DecidableEq

/-- The label output directory, as an association list from filename to the
content last written there. -/
abbrev FS := List (String × FileContent)

/-- Writing a file: the new content replaces any previous file of that name. -/
def fsWrite (fs : FS) (n : String) (c : FileContent) : FS :=
  (n, c) :: fs.filter (fun p => p.1 != n)

/-- Perform a list of writes in order. -/
def applyWrites (fs : FS) (ws : List (String × FileContent)) : FS :=
  ws.foldl (fun f p => fsWrite f p.1 p.2) fs

/-- Reading the directory: the content stored under a filename, if any. -/
def fsGet (fs : FS) (n : String) : Option FileContent :=
  (fs.find? (fun p => p.1 == n)).map (fun p => p.2)

/-- Outcome of `generate_label`: a returned error message (`(None, msg)`), an
uncaught exception, or the composed label. -/
inductive GenResult where
  | errPage (msg : String)
  | exc (msg : String)
  | okData (d : LabelData)
  deriving DecidableEq

/-- The contents loop of lines 81–83: `for i, item in enumerate(line_items[:12],
start=1): draw.text((50, y), f"{i}. {item}"); y += 42`, beginning at `y = 125`. -/
def drawContents (y : Int) (idx : Nat) : List Cell → List (Int × Int × String)
  | [] => []
  | c :: cs => (50, y, toString idx ++ ". " ++ c.toStr) :: drawContents (y + 42) (idx + 1) cs

/-- Lines 58–97 of `generate_label`, given the matched rows `bom_info = ms`:
resolve the displayed fields and record every `draw.text` call with its
coordinates. -/
def composeLabelData (tbl : Table) (skuInput : String) (overrideMrp : Option String)
    (ms : List Row) : LabelData :=
  let colMap := mkColMap tbl.headers
  let first := ms.headD []
  let desc := rowGetStr first ((colMap.lookup "bom_desc").getD "")
  let isbn := rowGetStr first ((colMap.lookup "isbn").getD "")
  let tableMrp := rowGetStr first ((colMap.lookup "mrp").getD "")
  let mrp := match overrideMrp with
    | some p => if p = "" then tableMrp else p
    | none => tableMrp
  let qty := ms.length
  let lineItems : List Cell := match colMap.lookup "bom_line" with
    | some h => ms.map (fun (r : Row) => (r.lookup h).getD Cell.nan)
    | none => []
  let infoLines := ["ISBN: " ++ isbn, "Qty: " ++ toString qty ++ " Items", "MRP: ₹" ++ mrp]
  let totalTextHeight := infoLines.length * 38
  let startY : Nat := 680 + (190 - totalTextHeight) / 2
  { barcodeFilename := skuInput ++ "_barcode.png"
    labelFilename := skuInput ++ "_label.png"
    desc := desc
    isbn := isbn
    mrp := mrp
    qty := qty
    titleText := (30, 25, desc)
    contents := drawContents 125 1 (lineItems.take 12)
    infoStartY := startY
    infoTexts := infoLines.enum.map (fun p => ((40 : Int), (startY : Int) + 42 * (p.1 : Int), p.2))
    skuText := (800, 830, skuInput) }

/-- Function `generate_label(sku_input, override_mrp)`: returns the ordered list of file
writes it performs together with its outcome.  Mirrors lines 48–102; a write
whose filename is in `failing` raises instead (stopping the function there, the
earlier writes already done). -/
def generateLabelCore (failing : List String) (tbl : Table) (skuInput : String)
    (overrideMrp : Option String) : List (String × FileContent) × GenResult :=
  match recordLookup tbl skuInput with
  | .error e => ([], .errPage e)
  | .ok ms =>
    let d := composeLabelData tbl skuInput overrideMrp ms
    if failing.contains d.barcodeFilename then ([], .exc "IOError")
    else if failing.contains d.labelFilename then
      ([(d.barcodeFilename, .barcodePng skuInput)], .exc "IOError")
    else
      ([(d.barcodeFilename, .barcodePng skuInput), (d.labelFilename, .labelPng d)], .okData d)

/-- Function `generate_label` acting on the output directory. -/
def generateLabelFS (failing : List String) (fs : FS) (tbl : Table) (skuInput : String)
    (overrideMrp : Option String) : FS × GenResult :=
  ((applyWrites fs (generateLabelCore failing tbl skuInput overrideMrp).1),
   (generateLabelCore failing tbl skuInput overrideMrp).2)

/-- Pure view of `generate_label` when no write fails. -/
def generateLabel (tbl : Table) (skuInput : String) (overrideMrp : Option String) : GenResult :=
  (generateLabelCore [] tbl skuInput overrideMrp).2

/-! ## Flask endpoints -/

/-- The response of the `/download/<sku>/<mrp>` route: the error page string,
an uncaught exception (Flask's generic fault page), or the PDF attachment. -/
inductive DlResult where
  | page (msg : String)
  | fault (msg : String)
  | attachment (file : String)
  deriving DecidableEq

/-- Route `download_pdf(sku, mrp)` (lines 140–153): `"NA"` means no override; the
label is composed afresh, then wrapped into a 288×214 PDF page holding the
label image at `(0, 0)` with width 288 and height 214, returned as an
attachment.  Returns the writes performed and the response. -/
def downloadPdfCore (failing : List String) (tbl : Table) (sku mrp : String) :
    List (String × FileContent) × DlResult :=
  let mrpVal := if mrp = "NA" then none else some mrp
  match generateLabelCore failing tbl sku mrpVal with
  | (ws, .errPage e) => (ws, .page ("Error: " ++ e))
  | (ws, .exc m) => (ws, .fault m)
  | (ws, .okData d) =>
    let pdfFile := sku ++ "_label.pdf"
    if failing.contains pdfFile then (ws, .fault "IOError")
    else (ws ++ [(pdfFile, .pdfDoc 288 214 0 0 288 214 d.labelFilename)], .attachment pdfFile)

/-- Route `download_pdf` acting on the output directory. -/
def downloadPdfFS (failing : List String) (fs : FS) (tbl : Table) (sku mrp : String) :
    FS × DlResult :=
  ((applyWrites fs (downloadPdfCore failing tbl sku mrp).1),
   (downloadPdfCore failing tbl sku mrp).2)

/-- The rendered form page of the `index` route (`error`, `label`,
`product_name`, `mrp` template values), or an uncaught exception. -/
inductive PageResult where
  | page (error : Option String) (label : Option String)
      (productName : Option String) (mrpShown : Option String)
  | fault (msg : String)
  deriving DecidableEq

/-- The POST branch of `index` (lines 113–138): trim the SKU field, an empty
`mrp` field means no override, look the record up, and when the `generate`
flag is present and no error occurred run `generate_label`. -/
def indexPost (failing : List String) (fs : FS) (tbl : Table) (skuForm mrpForm : String)
    (generateFlag : Bool) : FS × PageResult :=
  let skuInput := pyStrip skuForm
  let overrideMrp := if mrpForm = "" then none else some mrpForm
  let colMap := mkColMap tbl.headers
  if skuInput = "" then (fs, .page (some "Please enter a SKU.") none none none)
  else if tbl.rows.isEmpty || (colMap.lookup "sku").isNone then
    (fs, .page (some "Excel file missing or invalid format.") none none none)
  else
    let h := (colMap.lookup "sku").getD ""
    let ms := tbl.rows.filter (fun r => pyUpper (skuCellStr r h) == pyUpper skuInput)
    if ms.isEmpty then (fs, .page (some "❌ SKU not found!") none none none)
    else
      let first := ms.headD []
      let productName := rowGetStr first ((colMap.lookup "bom_desc").getD "")
      let mrpShown := match overrideMrp with
        | some p => if p = "" then rowGetStr first ((colMap.lookup "mrp").getD "") else p
        | none => rowGetStr first ((colMap.lookup "mrp").getD "")
      if generateFlag then
        match generateLabelFS failing fs tbl skuInput overrideMrp with
        | (fs1, .errPage e) => (fs1, .page (some e) none (some productName) (some mrpShown))
        | (fs1, .exc m) => (fs1, .fault m)
        | (fs1, .okData d) =>
          (fs1, .page none (some d.labelFilename) (some productName) (some mrpShown))
      else (fs, .page none none (some productName) (some mrpShown))

/-! ## Concrete tables used by the witnesses below -/

/-- Witness table for C3 and others: a two-row table where the lower-cased
query "a" matches the upper-case cell "A" of the first row only. -/
def tblC3W : Table := ⟨["sku"], [[("sku", Cell.str "A")], [("sku", Cell.str "B")]]⟩

/-- Witness table for C7 and C2 (single matching row). -/
def tblC7W : Table := ⟨["sku", "isbn", "mrp"],
  [[("sku", Cell.str "K1"), ("isbn", Cell.str "978-0-1"), ("mrp", Cell.intVal 499)]]⟩

/-- Witness rows for C4: two matching rows with a bom_line column. -/
def msC4W : List Row :=
  [[("sku", Cell.str "A"), ("bomline", Cell.str "W1")],
   [("sku", Cell.str "A"), ("bomline", Cell.str "W2")]]

/-- Witness table for C4. -/
def tblC4W : Table := ⟨["sku", "bomline"], msC4W⟩

/-- The table of the C2 counterexample: its second header is a whitespace-only
cell, which `str.strip()` normalizes to the empty string. -/
def tblC2X : Table := ⟨["sku", ""], [[("sku", Cell.str "A"), ("", Cell.str "7")]]⟩

/-- Witness rows for C2 (amended). -/
def msC2W : List Row := [[("sku", Cell.str "K1"), ("isbn", Cell.str "978-0-1"),
  ("mrp", Cell.intVal 499)]]

/-- Witness rows for C10, variant A. -/
def msC10A : List Row := [[("sku", Cell.str "A"), ("mrp", Cell.intVal 1)],
  [("sku", Cell.str "A"), ("mrp", Cell.intVal 2)]]

/-- Witness rows for C10, variant B: same first row, different second row. -/
def msC10B : List Row := [[("sku", Cell.str "A"), ("mrp", Cell.intVal 1)],
  [("sku", Cell.str "A"), ("mrp", Cell.intVal 99)]]

/-- The content a list of writes leaves under filename `m` (the last write of
that name), if any. -/
def lastWrite (ws : List (String × FileContent)) (m : String) : Option FileContent :=
  (ws.reverse.find? (fun p => p.1 == m)).map (fun p => p.2)

/-- The table of the C9 counterexample: one row, SKU "A". -/
def tblC9X : Table := ⟨["sku"], [[("sku", Cell.str "A")]]⟩

/-! ## Properties of the fuzzy matcher -/

theorem gcmStep_of_some (word : String) (p : ℚ × String) (x : String) :
    ∃ q, gcmStep word (some p) x = some q ∧ p.1 ≤ q.1 := by
  unfold gcmStep
  by_cases hc : ratio x word < cutoff
  · exact ⟨p, by simp [hc], le_refl _⟩
  · by_cases hrep : p.1 < ratio x word ∨ (p.1 = ratio x word ∧ pyStrLt p.2.data x.data)
    · refine ⟨(ratio x word, x), by simp [hc, hrep], ?_⟩
      rcases hrep with h | ⟨h, _⟩
      · exact le_of_lt h
      · exact le_of_eq h
    · exact ⟨p, by simp [hc, hrep], le_refl _⟩

theorem gcm_foldl_of_some (word : String) :
    ∀ (l : List String) (p : ℚ × String),
      ∃ q, l.foldl (gcmStep word) (some p) = some q ∧ p.1 ≤ q.1 := by
  intro l
  induction l with
  | nil => exact fun p => ⟨p, rfl, le_refl _⟩
  | cons y t ih =>
    intro p
    obtain ⟨q, hq, hle⟩ := gcmStep_of_some word p y
    obtain ⟨q', hq', hle'⟩ := ih q
    exact ⟨q', by simpa [List.foldl_cons, hq] using hq', le_trans hle hle'⟩

theorem gcm_foldl_mono (word : String) (l : List String) (p : ℚ × String) (r : ℚ) (x : String)
    (h : l.foldl (gcmStep word) (some p) = some (r, x)) : p.1 ≤ r := by
  obtain ⟨q, hq, hle⟩ := gcm_foldl_of_some word l p
  rw [h] at hq
  cases hq
  exact hle

theorem gcm_foldl_sound (word : String) :
    ∀ (l : List String) (acc : Option (ℚ × String)) (r : ℚ) (x : String),
      l.foldl (gcmStep word) acc = some (r, x) →
      acc = some (r, x) ∨ (x ∈ l ∧ r = ratio x word ∧ cutoff ≤ r) := by
  intro l
  induction l with
  | nil => intro acc r x h; exact Or.inl h
  | cons y t ih =>
    intro acc r x h
    rw [List.foldl_cons] at h
    rcases ih (gcmStep word acc y) r x h with hstep | ⟨hmem, hr, hcut⟩
    · unfold gcmStep at hstep
      by_cases hc : ratio y word < cutoff
      · simp [hc] at hstep
        exact Or.inl hstep
      · cases acc with
        | none =>
          simp [hc] at hstep
          obtain ⟨hr, hx⟩ := hstep
          subst hx
          exact Or.inr ⟨List.mem_cons_self y t, hr.symm, hr ▸ le_of_not_lt hc⟩
        | some p =>
          by_cases hrep : p.1 < ratio y word ∨ (p.1 = ratio y word ∧ pyStrLt p.2.data y.data)
          · simp [hc, hrep] at hstep
            obtain ⟨hr, hx⟩ := hstep
            subst hx
            exact Or.inr ⟨List.mem_cons_self y t, hr.symm, hr ▸ le_of_not_lt hc⟩
          · simp [hc, hrep] at hstep
            exact Or.inl (by rw [hstep])
    · exact Or.inr ⟨List.mem_cons_of_mem y hmem, hr, hcut⟩

theorem gcm_foldl_max (word : String) :
    ∀ (l : List String) (acc : Option (ℚ × String)) (r : ℚ) (x : String),
      l.foldl (gcmStep word) acc = some (r, x) →
      ∀ y ∈ l, cutoff ≤ ratio y word → ratio y word ≤ r := by
  intro l
  induction l with
  | nil => intro acc r x _ y hy; exact absurd hy (List.not_mem_nil y)
  | cons z t ih =>
    intro acc r x h y hy hcut
    rw [List.foldl_cons] at h
    rcases List.mem_cons.mp hy with hyz | hyt
    · subst hyz
      have hstep : ∃ q, gcmStep word acc y = some q ∧ ratio y word ≤ q.1 := by
        unfold gcmStep
        have hc : ¬ ratio y word < cutoff := not_lt_of_le hcut
        cases acc with
        | none => exact ⟨(ratio y word, y), by simp [hc], le_refl _⟩
        | some p =>
          by_cases hrep : p.1 < ratio y word ∨ (p.1 = ratio y word ∧ pyStrLt p.2.data y.data)
          · exact ⟨(ratio y word, y), by simp [hc, hrep], le_refl _⟩
          · refine ⟨p, by simp [hc, hrep], ?_⟩
            exact le_of_not_lt (fun hl => hrep (Or.inl hl))
      obtain ⟨q, hq, hle⟩ := hstep
      rw [hq] at h
      exact le_trans hle (gcm_foldl_mono word t q r x h)
    · exact ih (gcmStep word acc z) r x h y hyt hcut

theorem gcm_foldl_none (word : String) :
    ∀ l : List String, l.foldl (gcmStep word) none = none →
      ∀ y ∈ l, ratio y word < cutoff := by
  intro l
  induction l with
  | nil => intro _ y hy; exact absurd hy (List.not_mem_nil y)
  | cons z t ih =>
    intro h y hy
    rw [List.foldl_cons] at h
    by_cases hc : ratio z word < cutoff
    · have hz : gcmStep word none z = none := by unfold gcmStep; simp [hc]
      rw [hz] at h
      rcases List.mem_cons.mp hy with hyz | hyt
      · exact hyz ▸ hc
      · exact ih h y hyt
    · have hz : gcmStep word none z = some (ratio z word, z) := by unfold gcmStep; simp [hc]
      rw [hz] at h
      obtain ⟨q, hq, _⟩ := gcm_foldl_of_some word t (ratio z word, z)
      rw [h] at hq
      cases hq

theorem getCloseMatch1_some (word : String) (poss : List String) (h : String)
    (hres : getCloseMatch1 word poss = some h) :
    h ∈ poss ∧ cutoff ≤ ratio h word ∧ ∀ y ∈ poss, ratio y word ≤ ratio h word := by
  unfold getCloseMatch1 at hres
  rcases hfold : poss.foldl (gcmStep word) none with _ | q
  · rw [hfold] at hres; cases hres
  · rw [hfold] at hres
    obtain ⟨r, x⟩ := q
    simp at hres
    subst hres
    rcases gcm_foldl_sound word poss none r x hfold with hacc | ⟨hmem, hr, hcut⟩
    · cases hacc
    · subst hr
      refine ⟨hmem, hcut, fun y hy => ?_⟩
      by_cases hq : cutoff ≤ ratio y word
      · exact gcm_foldl_max word poss none _ x hfold y hy hq
      · exact le_trans (le_of_lt (lt_of_not_le hq)) hcut

theorem getCloseMatch1_none (word : String) (poss : List String)
    (hres : getCloseMatch1 word poss = none) :
    ∀ y ∈ poss, ratio y word < cutoff := by
  unfold getCloseMatch1 at hres
  rcases hfold : poss.foldl (gcmStep word) none with _ | q
  · exact gcm_foldl_none word poss hfold
  · rw [hfold] at hres; cases hres

/-! ## Properties of the resolver loop -/

theorem resolveField_none (options headers : List String)
    (h : ∀ o ∈ options, getCloseMatch1 (pyLower o) headers = none) :
    resolveField options headers = none := by
  induction options with
  | nil => rfl
  | cons o rest ih =>
    unfold resolveField
    rw [h o (List.mem_cons_self o rest)]
    exact ih (fun o' ho' => h o' (List.mem_cons_of_mem o ho'))

theorem resolveField_first (headers : List String) :
    ∀ (options : List String) (i : Nat) (o h : String),
      options.get? i = some o →
      getCloseMatch1 (pyLower o) headers = some h →
      (∀ j o', j < i → options.get? j = some o' →
        getCloseMatch1 (pyLower o') headers = none) →
      resolveField options headers = some h := by
  intro options
  induction options with
  | nil => intro i o h hget; cases hget
  | cons a rest ih =>
    intro i o h hget hmatch hprev
    cases i with
    | zero =>
      cases hget
      unfold resolveField
      rw [hmatch]
    | succ i' =>
      have ha : getCloseMatch1 (pyLower a) headers = none :=
        hprev 0 a (Nat.succ_pos i') rfl
      unfold resolveField
      rw [ha]
      exact ih i' o h hget hmatch
        (fun j o' hj hg => hprev (j + 1) o' (Nat.succ_lt_succ hj) hg)

theorem lookup_mkColMap (headers : List String) (field : String) (options : List String)
    (hmem : (field, options) ∈ requiredCols) :
    (mkColMap headers).lookup field = resolveField options headers := by
  fin_cases hmem <;>
  · unfold mkColMap requiredCols
    rcases hs : resolveField ["sku", "item", "itemcode"] headers with _ | a <;>
    rcases hd : resolveField ["bom description", "bomdesc", "description"] headers with _ | b <;>
    rcases hl : resolveField ["bom line description", "bomline", "line description"] headers
      with _ | c <;>
    rcases hi : resolveField ["isbn"] headers with _ | d <;>
    rcases hm : resolveField ["mrp"] headers with _ | e <;>
    simp [hs, hd, hl, hi, hm, List.filterMap_cons, List.lookup]

/-- C1: the Column Resolver, over any normalized header row, treats each of the
five logical fields by trying its alias candidates in listed order and binding
the field to the single best fuzzy match (similarity ≥ 0.6) of the first
candidate with any qualifying match — even when a later candidate would match
better — and leaves a field with no qualifying candidate absent from the map
rather than failing. -/
theorem C1_column_resolver (headers : List String) (field : String) (options : List String)
    (hmem : (field, options) ∈ requiredCols) :
    ((∀ o ∈ options, getCloseMatch1 (pyLower o) headers = none) →
      (mkColMap headers).lookup field = none) ∧
    (∀ i o h, options.get? i = some o →
      getCloseMatch1 (pyLower o) headers = some h →
      (∀ j o', j < i → options.get? j = some o' →
        getCloseMatch1 (pyLower o') headers = none) →
      (mkColMap headers).lookup field = some h ∧
      h ∈ headers ∧ cutoff ≤ ratio h (pyLower o) ∧
      ∀ h' ∈ headers, ratio h' (pyLower o) ≤ ratio h (pyLower o)) := by
  constructor
  · intro hall
    rw [lookup_mkColMap headers field options hmem]
    exact resolveField_none options headers hall
  · intro i o h hget hmatch hprev
    obtain ⟨hmem', hcut, hmax⟩ := getCloseMatch1_some (pyLower o) headers h hmatch
    refine ⟨?_, hmem', hcut, hmax⟩
    rw [lookup_mkColMap headers field options hmem]
    exact resolveField_first headers options i o h hget hmatch hprev

/-- Witness for C1: headers `["skux", "item"]` — the first alias `"sku"` has
only the weak qualifying match `"skux"` while the later alias `"item"` would
have matched the header `"item"` exactly, yet `"skux"` is bound. -/
theorem C1_column_resolver_witness :
    (mkColMap ["skux", "item"]).lookup "sku" = some "skux" ∧
    "skux" ∈ ["skux", "item"] ∧ cutoff ≤ ratio "skux" (pyLower "sku") ∧
    ∀ h' ∈ ["skux", "item"], ratio h' (pyLower "sku") ≤ ratio "skux" (pyLower "sku") :=
  (C1_column_resolver ["skux", "item"] "sku" ["sku", "item", "itemcode"] (by decide)).2
    0 "sku" "skux" (by decide) (by decide)
    (fun j o' hj _ => absurd hj (Nat.not_lt_zero j))

/-! ## Record lookup -/

/-- C3: Record Lookup returns exactly the rows whose resolved sku cell,
stringified and upper-cased, equals the upper-cased input, and signals failure
exactly when the Column Map lacks a sku entry, the table is empty, or zero
rows match. -/
theorem C3_record_lookup (tbl : Table) (sku : String) :
    (∀ ms, recordLookup tbl sku = .ok ms →
      ∃ h, (mkColMap tbl.headers).lookup "sku" = some h ∧
        ms = tbl.rows.filter (fun r => pyUpper (skuCellStr r h) == pyUpper sku) ∧
        ms ≠ [] ∧
        ∀ r, r ∈ ms ↔ r ∈ tbl.rows ∧ pyUpper (skuCellStr r h) = pyUpper sku) ∧
    ((∃ e, recordLookup tbl sku = .error e) ↔
      ((mkColMap tbl.headers).lookup "sku" = none ∨ tbl.rows = [] ∨
        tbl.rows.filter
          (fun r => pyUpper (skuCellStr r (((mkColMap tbl.headers).lookup "sku").getD ""))
            == pyUpper sku) = [])) := by
  unfold recordLookup
  rcases hlk : (mkColMap tbl.headers).lookup "sku" with _ | h
  · simp only [hlk, Option.isNone_none, Bool.or_true, if_true]
    constructor
    · intro ms hms; cases hms
    · exact ⟨fun _ => Or.inl trivial, fun _ => ⟨_, rfl⟩⟩
  · simp only [hlk, Option.isNone_some, Bool.or_false, Option.getD_some]
    by_cases hrows : tbl.rows.isEmpty
    · simp only [hrows, if_true]
      constructor
      · intro ms hms; cases hms
      · exact ⟨fun _ => Or.inr (Or.inl (List.isEmpty_iff.mp hrows)), fun _ => ⟨_, rfl⟩⟩
    · simp only [hrows, if_false]
      by_cases hfil : (tbl.rows.filter (fun r => pyUpper (skuCellStr r h) == pyUpper sku)).isEmpty
      · simp only [hfil, if_true]
        constructor
        · intro ms hms; cases hms
        · exact ⟨fun _ => Or.inr (Or.inr (List.isEmpty_iff.mp hfil)), fun _ => ⟨_, rfl⟩⟩
      · simp only [hfil, if_false]
        constructor
        · intro ms hms
          cases hms
          refine ⟨h, rfl, rfl, fun hnil => hfil (by rw [hnil]; rfl), fun r => ?_⟩
          rw [List.mem_filter, beq_iff_eq]
        · constructor
          · intro ⟨e, he⟩; cases he
          · intro hdis
            rcases hdis with h1 | h2 | h3
            · cases h1
            · exact absurd (List.isEmpty_iff.mpr h2) hrows
            · exact absurd (List.isEmpty_iff.mpr h3) hfil

theorem C3_record_lookup_witness :
    ∃ h, (mkColMap tblC3W.headers).lookup "sku" = some h ∧
      [[("sku", Cell.str "A")]] =
        tblC3W.rows.filter (fun r => pyUpper (skuCellStr r h) == pyUpper "a") ∧
      [[("sku", Cell.str "A")]] ≠ ([] : List Row) ∧
      ∀ r, r ∈ [[("sku", Cell.str "A")]] ↔
        r ∈ tblC3W.rows ∧ pyUpper (skuCellStr r h) = pyUpper "a" :=
  (C3_record_lookup tblC3W "a").1 [[("sku", Cell.str "A")]] (by decide)

/-! ## Destructuring generate_label -/

theorem generateLabel_ok_elim (tbl : Table) (sku : String) (o : Option String) (d : LabelData)
    (hok : generateLabel tbl sku o = .okData d) :
    ∃ ms, recordLookup tbl sku = .ok ms ∧ d = composeLabelData tbl sku o ms := by
  unfold generateLabel generateLabelCore at hok
  rcases hrl : recordLookup tbl sku with e | ms
  · rw [hrl] at hok; cases hok
  · rw [hrl] at hok
    have hb : ([] : List String).contains (composeLabelData tbl sku o ms).barcodeFilename
        = false := rfl
    have hl : ([] : List String).contains (composeLabelData tbl sku o ms).labelFilename
        = false := rfl
    simp only [hb, hl, Bool.false_eq_true, if_false] at hok
    cases hok
    exact ⟨ms, rfl, rfl⟩

theorem generateLabelCore_ok (failing : List String) (tbl : Table) (sku : String)
    (o : Option String) (ms : List Row)
    (hms : recordLookup tbl sku = .ok ms)
    (hb : failing.contains (sku ++ "_barcode.png") = false)
    (hl : failing.contains (sku ++ "_label.png") = false) :
    generateLabelCore failing tbl sku o =
      ([(sku ++ "_barcode.png", .barcodePng sku),
        (sku ++ "_label.png", .labelPng (composeLabelData tbl sku o ms))],
       .okData (composeLabelData tbl sku o ms)) := by
  unfold generateLabelCore
  rw [hms]
  have hbf : (composeLabelData tbl sku o ms).barcodeFilename = sku ++ "_barcode.png" := rfl
  have hlf : (composeLabelData tbl sku o ms).labelFilename = sku ++ "_label.png" := rfl
  simp only [hbf, hlf, hb, hl, Bool.false_eq_true, if_false]

theorem list3_length (a b c : String) : ([a, b, c] : List String).length = 3 := rfl

theorem enumMap3 (a b c : String) (s : Nat) :
    ([a, b, c] : List String).enum.map
      (fun p => ((40 : Int), (s : Int) + 42 * (p.1 : Int), p.2)) =
    [(40, (s : Int), a), (40, (s : Int) + 42, b), (40, (s : Int) + 84, c)] := rfl

theorem composeLabelData_infoStartY (tbl : Table) (sku : String) (o : Option String)
    (ms : List Row) :
    (composeLabelData tbl sku o ms).infoStartY = 718 := by
  unfold composeLabelData
  simp only [list3_length]

theorem composeLabelData_infoTexts (tbl : Table) (sku : String) (o : Option String)
    (ms : List Row) :
    (composeLabelData tbl sku o ms).infoTexts =
      [(40, 718, "ISBN: " ++ (composeLabelData tbl sku o ms).isbn),
       (40, 760, "Qty: " ++ toString (composeLabelData tbl sku o ms).qty ++ " Items"),
       (40, 802, "MRP: ₹" ++ (composeLabelData tbl sku o ms).mrp)] := by
  unfold composeLabelData
  simp only [enumMap3, list3_length]
  norm_num

/-- C7: the three info-box lines start at `box_top + (190 - total_text_height) / 2`
with `total_text_height = 3 * 38`, i.e. the text block is set off evenly inside
the 190-unit-tall box, the lines following at the fixed 42-unit step. -/
theorem C7_info_box_centering (tbl : Table) (sku : String) (o : Option String) (d : LabelData)
    (hok : generateLabel tbl sku o = .okData d) :
    d.infoStartY = 680 + (190 - 3 * 38) / 2 ∧
    d.infoTexts.map (fun t => (t.1, t.2.1)) =
      [(40, (d.infoStartY : Int)), (40, (d.infoStartY : Int) + 42), (40, (d.infoStartY : Int) + 84)] ∧
    d.infoTexts.map (fun t => t.2.2) =
      ["ISBN: " ++ d.isbn, "Qty: " ++ toString d.qty ++ " Items", "MRP: ₹" ++ d.mrp] := by
  obtain ⟨ms, _, hd⟩ := generateLabel_ok_elim tbl sku o d hok
  subst hd
  refine ⟨by rw [composeLabelData_infoStartY], ?_, ?_⟩
  · rw [composeLabelData_infoTexts, composeLabelData_infoStartY]; rfl
  · rw [composeLabelData_infoTexts]; rfl

theorem C7_info_box_centering_witness :
    (composeLabelData tblC7W "k1" none
        [[("sku", Cell.str "K1"), ("isbn", Cell.str "978-0-1"), ("mrp", Cell.intVal 499)]]).infoStartY
      = 680 + (190 - 3 * 38) / 2 :=
  (C7_info_box_centering tblC7W "k1" none _ (by decide)).1

/-! ## Field lemmas for the composed label -/

theorem composeLabelData_qty (tbl : Table) (sku : String) (o : Option String) (ms : List Row) :
    (composeLabelData tbl sku o ms).qty = ms.length := rfl

theorem composeLabelData_desc (tbl : Table) (sku : String) (o : Option String) (ms : List Row) :
    (composeLabelData tbl sku o ms).desc =
      rowGetStr (ms.headD []) (((mkColMap tbl.headers).lookup "bom_desc").getD "") := rfl

theorem composeLabelData_isbn (tbl : Table) (sku : String) (o : Option String) (ms : List Row) :
    (composeLabelData tbl sku o ms).isbn =
      rowGetStr (ms.headD []) (((mkColMap tbl.headers).lookup "isbn").getD "") := rfl

theorem composeLabelData_mrp (tbl : Table) (sku : String) (o : Option String) (ms : List Row) :
    (composeLabelData tbl sku o ms).mrp =
      match o with
      | some p =>
        if p = "" then rowGetStr (ms.headD []) (((mkColMap tbl.headers).lookup "mrp").getD "")
        else p
      | none => rowGetStr (ms.headD []) (((mkColMap tbl.headers).lookup "mrp").getD "") := rfl

theorem composeLabelData_contents (tbl : Table) (sku : String) (o : Option String)
    (ms : List Row) :
    (composeLabelData tbl sku o ms).contents =
      drawContents 125 1
        ((match (mkColMap tbl.headers).lookup "bom_line" with
          | some h => ms.map (fun (r : Row) => (r.lookup h).getD Cell.nan)
          | none => []).take 12) := rfl

theorem drawContents_length (l : List Cell) :
    ∀ (y : Int) (idx : Nat), (drawContents y idx l).length = l.length := by
  induction l with
  | nil => intro y idx; rfl
  | cons c cs ih =>
    intro y idx
    show (drawContents (y + 42) (idx + 1) cs).length + 1 = cs.length + 1
    rw [ih]

theorem drawContents_getQ (l : List Cell) :
    ∀ (y : Int) (idx k : Nat),
      (drawContents y idx l).get? k =
        (l.get? k).map
          (fun c => (50, y + 42 * (k : Int), toString (idx + k) ++ ". " ++ c.toStr)) := by
  induction l with
  | nil => intro y idx k; cases k <;> rfl
  | cons c cs ih =>
    intro y idx k
    cases k with
    | zero => simp [drawContents]
    | succ j =>
      have hcons : (c :: cs).get? (j + 1) = cs.get? j := rfl
      have h1 : ∀ c' : Cell,
          ((50 : Int), y + 42 + 42 * (j : Int), toString (idx + 1 + j) ++ ". " ++ c'.toStr)
            = (50, y + 42 * ((j + 1 : Nat) : Int), toString (idx + (j + 1)) ++ ". " ++ c'.toStr) := by
        intro c'
        have hy : y + 42 + 42 * (j : Int) = y + 42 * ((j + 1 : Nat) : Int) := by
          push_cast; ring
        have hi : idx + 1 + j = idx + (j + 1) := by omega
        rw [hy, hi]
      show (drawContents (y + 42) (idx + 1) cs).get? j = _
      rw [hcons, ih]
      cases hc : cs.get? j with
      | none => rfl
      | some c' => exact congrArg some (h1 c')

/-- C4: the quantity on the label equals the number of matching rows, and with
a resolved bom_line column the contents list renders min(n, 12) line items, the
i-th (1-based) prefixed with its index at the fixed 42-unit vertical step. -/
theorem C4_quantity_contents (tbl : Table) (sku : String) (o : Option String) (d : LabelData)
    (ms : List Row) (hcol : String)
    (hok : generateLabel tbl sku o = .okData d)
    (hms : recordLookup tbl sku = .ok ms)
    (hline : (mkColMap tbl.headers).lookup "bom_line" = some hcol) :
    d.qty = ms.length ∧
    d.infoTexts.get? 1 = some (40, 760, "Qty: " ++ toString ms.length ++ " Items") ∧
    d.contents.length = min ms.length 12 ∧
    ∀ i r, i < 12 → ms.get? i = some r →
      d.contents.get? i = some (50, 125 + 42 * (i : Int),
        toString (i + 1) ++ ". " ++ ((r.lookup hcol).getD Cell.nan).toStr) := by
  obtain ⟨ms', hms', hd⟩ := generateLabel_ok_elim tbl sku o d hok
  rw [hms] at hms'
  injection hms' with hmse
  subst hmse
  subst hd
  refine ⟨composeLabelData_qty tbl sku o ms, ?_, ?_, ?_⟩
  · rw [composeLabelData_infoTexts, composeLabelData_qty]
    rfl
  · rw [composeLabelData_contents, hline, drawContents_length, List.length_take,
      List.length_map, Nat.min_comm]
  · intro i r hi hr
    rw [composeLabelData_contents, hline, drawContents_getQ, List.get?_take hi,
      List.get?_map, hr]
    show some _ = some _
    rw [Nat.add_comm 1 i]

/-- Witness for C4: two matching rows with bom_line resolved; quantity 2,
two contents lines at the 42-unit step. -/
theorem C4_quantity_contents_witness :
    (composeLabelData tblC4W "A" none msC4W).qty = msC4W.length ∧
    (composeLabelData tblC4W "A" none msC4W).infoTexts.get? 1 =
      some (40, 760, "Qty: " ++ toString msC4W.length ++ " Items") ∧
    (composeLabelData tblC4W "A" none msC4W).contents.length = min msC4W.length 12 ∧
    ∀ i r, i < 12 → msC4W.get? i = some r →
      (composeLabelData tblC4W "A" none msC4W).contents.get? i =
        some (50, 125 + 42 * (i : Int),
          toString (i + 1) ++ ". " ++ ((r.lookup "bomline").getD Cell.nan).toStr) :=
  C4_quantity_contents tblC4W "A" none _ msC4W "bomline" (by decide) (by decide) (by decide)

/-! ## The MRP override (C2) -/

/-- C2 counterexample: the mrp field is absent from the Column Map, the record
exists and no override is supplied, yet the composed label shows MRP "7" (the
value of the empty-named column), not the sentinel "N/A" — because
`row.get(col_map.get("mrp", ""), "N/A")` falls back to looking up the
empty-string column name. -/
theorem C2_mrp_override_counterexample :
    (mkColMap tblC2X.headers).lookup "mrp" = none ∧
    generateLabel tblC2X "A" none =
      .okData (composeLabelData tblC2X "A" none [[("sku", Cell.str "A"), ("", Cell.str "7")]]) ∧
    (composeLabelData tblC2X "A" none [[("sku", Cell.str "A"), ("", Cell.str "7")]]).mrp = "7" ∧
    (composeLabelData tblC2X "A" none [[("sku", Cell.str "A"), ("", Cell.str "7")]]).mrp ≠ "N/A"
    := ⟨by decide, by decide, by decide, by decide⟩

/-- C2 (amended): a non-empty explicit override appears verbatim as the MRP of
the info box; otherwise the first matching row's value under the resolved mrp
header is shown; when mrp is absent from the Column Map the code looks up the
empty-string column name, so "N/A" is shown (only) when the first matching row
has no empty-named column. -/
theorem C2_mrp_override (tbl : Table) (sku : String) (o : Option String) (d : LabelData)
    (ms : List Row)
    (hok : generateLabel tbl sku o = .okData d)
    (hms : recordLookup tbl sku = .ok ms) :
    d.infoTexts.get? 2 = some (40, 802, "MRP: ₹" ++ d.mrp) ∧
    (∀ p, o = some p → p ≠ "" → d.mrp = p) ∧
    (o = none → ∀ h, (mkColMap tbl.headers).lookup "mrp" = some h →
      d.mrp = rowGetStr (ms.headD []) h) ∧
    (o = none → (mkColMap tbl.headers).lookup "mrp" = none →
      d.mrp = rowGetStr (ms.headD []) "") ∧
    (o = none → (mkColMap tbl.headers).lookup "mrp" = none →
      (ms.headD []).lookup "" = none → d.mrp = "N/A") := by
  obtain ⟨ms', hms', hd⟩ := generateLabel_ok_elim tbl sku o d hok
  rw [hms] at hms'
  injection hms' with hmse
  subst hmse
  subst hd
  refine ⟨?_, ?_, ?_, ?_, ?_⟩
  · rw [composeLabelData_infoTexts]
    rfl
  · intro p hp hne
    subst hp
    rw [composeLabelData_mrp]
    simp [hne]
  · intro ho h hh
    subst ho
    rw [composeLabelData_mrp, hh]
    rfl
  · intro ho hh
    subst ho
    rw [composeLabelData_mrp, hh]
    rfl
  · intro ho hh hempty
    subst ho
    rw [composeLabelData_mrp, hh]
    show rowGetStr (ms.headD []) ((none : Option String).getD "") = "N/A"
    unfold rowGetStr
    rw [Option.getD_none, hempty]

/-- Witness for C2 (amended): the override "250" is shown verbatim even though
the table's mrp column holds 499. -/
theorem C2_mrp_override_witness :
    (composeLabelData tblC7W "k1" (some "250") msC2W).infoTexts.get? 2 =
      some (40, 802, "MRP: ₹" ++ (composeLabelData tblC7W "k1" (some "250") msC2W).mrp) ∧
    (composeLabelData tblC7W "k1" (some "250") msC2W).mrp = "250" :=
  have hmain := C2_mrp_override tblC7W "k1" (some "250") _ msC2W (by decide) (by decide)
  ⟨hmain.1, hmain.2.1 "250" rfl (by decide)⟩

/-! ## Not-found leaves the output directory untouched (C5) -/

/-- C5: when the SKU column resolved and the table is non-empty but no row
matches, generate_label fails with the not-found message having performed no
file write: neither the barcode nor the label file is created. -/
theorem C5_not_found_no_files (failing : List String) (fs : FS) (tbl : Table)
    (sku : String) (o : Option String) (hdr : String)
    (hh : (mkColMap tbl.headers).lookup "sku" = some hdr)
    (hne : tbl.rows ≠ [])
    (hfil : tbl.rows.filter (fun r => pyUpper (skuCellStr r hdr) == pyUpper sku) = []) :
    generateLabelCore failing tbl sku o = ([], .errPage "❌ SKU not found!") ∧
    generateLabelFS failing fs tbl sku o = (fs, .errPage "❌ SKU not found!") := by
  have hre : tbl.rows.isEmpty = false := by
    cases hre0 : tbl.rows.isEmpty
    · rfl
    · exact absurd (List.isEmpty_iff.mp hre0) hne
  have hrl : recordLookup tbl sku = .error "❌ SKU not found!" := by
    unfold recordLookup
    simp only [hre, hh, Option.isNone_some, Bool.or_false, Bool.false_eq_true, if_false,
      Option.getD_some, hfil, List.isEmpty_nil, if_true]
  have hcore : generateLabelCore failing tbl sku o = ([], .errPage "❌ SKU not found!") := by
    unfold generateLabelCore
    rw [hrl]
  exact ⟨hcore, by unfold generateLabelFS; rw [hcore]; rfl⟩

/-- Witness for C5: looking up the absent SKU "ZZZ". -/
theorem C5_not_found_no_files_witness :
    generateLabelCore [] tblC3W "ZZZ" none = ([], .errPage "❌ SKU not found!") ∧
    generateLabelFS [] [] tblC3W "ZZZ" none = ([], .errPage "❌ SKU not found!") :=
  C5_not_found_no_files [] [] tblC3W "ZZZ" none "sku" (by decide) (by decide) (by decide)

/-! ## Only the first matching row feeds desc/isbn/mrp (C10) -/

/-- C10: the description, ISBN and (non-overridden) MRP come from the first
matching row only: two tables with the same headers whose record lookups agree
on the first matching row produce the same three values, whatever the
remaining rows hold. -/
theorem C10_first_row_only (tbl1 tbl2 : Table) (sku : String) (o : Option String)
    (d1 d2 : LabelData) (ms1 ms2 : List Row)
    (hh : tbl1.headers = tbl2.headers)
    (h1 : recordLookup tbl1 sku = .ok ms1) (h2 : recordLookup tbl2 sku = .ok ms2)
    (hfirst : ms1.headD [] = ms2.headD [])
    (g1 : generateLabel tbl1 sku o = .okData d1) (g2 : generateLabel tbl2 sku o = .okData d2) :
    (d1.desc = d2.desc ∧ d1.isbn = d2.isbn ∧ d1.mrp = d2.mrp) ∧
    d1.desc = rowGetStr (ms1.headD []) (((mkColMap tbl1.headers).lookup "bom_desc").getD "") ∧
    d1.isbn = rowGetStr (ms1.headD []) (((mkColMap tbl1.headers).lookup "isbn").getD "") := by
  obtain ⟨ms1', h1', e1⟩ := generateLabel_ok_elim tbl1 sku o d1 g1
  obtain ⟨ms2', h2', e2⟩ := generateLabel_ok_elim tbl2 sku o d2 g2
  rw [h1] at h1'
  injection h1' with h1e
  subst h1e
  rw [h2] at h2'
  injection h2' with h2e
  subst h2e
  subst e1
  subst e2
  refine ⟨⟨?_, ?_, ?_⟩, composeLabelData_desc tbl1 sku o ms1,
    composeLabelData_isbn tbl1 sku o ms1⟩
  · rw [composeLabelData_desc, composeLabelData_desc, hh, hfirst]
  · rw [composeLabelData_isbn, composeLabelData_isbn, hh, hfirst]
  · rw [composeLabelData_mrp, composeLabelData_mrp, hh, hfirst]

/-- Witness for C10: two tables differing only in the second matching row's
mrp cell still show the first row's values. -/
theorem C10_first_row_only_witness :
    ((composeLabelData ⟨["sku", "mrp"], msC10A⟩ "A" none msC10A).desc =
        (composeLabelData ⟨["sku", "mrp"], msC10B⟩ "A" none msC10B).desc ∧
      (composeLabelData ⟨["sku", "mrp"], msC10A⟩ "A" none msC10A).isbn =
        (composeLabelData ⟨["sku", "mrp"], msC10B⟩ "A" none msC10B).isbn ∧
      (composeLabelData ⟨["sku", "mrp"], msC10A⟩ "A" none msC10A).mrp =
        (composeLabelData ⟨["sku", "mrp"], msC10B⟩ "A" none msC10B).mrp) ∧
    (composeLabelData ⟨["sku", "mrp"], msC10A⟩ "A" none msC10A).desc =
      rowGetStr (msC10A.headD [])
        (((mkColMap (Table.mk ["sku", "mrp"] msC10A).headers).lookup "bom_desc").getD "") ∧
    (composeLabelData ⟨["sku", "mrp"], msC10A⟩ "A" none msC10A).isbn =
      rowGetStr (msC10A.headD [])
        (((mkColMap (Table.mk ["sku", "mrp"] msC10A).headers).lookup "isbn").getD "") :=
  C10_first_row_only ⟨["sku", "mrp"], msC10A⟩ ⟨["sku", "mrp"], msC10B⟩ "A" none _ _
    msC10A msC10B rfl (by decide) (by decide) (by decide) (by decide) (by decide)

/-! ## The output directory: overwrite semantics -/

theorem find?_append {α : Type} (l1 l2 : List α) (p : α → Bool) :
    (l1 ++ l2).find? p =
      match l1.find? p with
      | some a => some a
      | none => l2.find? p := by
  induction l1 with
  | nil => rfl
  | cons a t ih =>
    cases ha : p a with
    | true => simp [List.find?, ha]
    | false => simp [List.find?, ha, ih]

theorem find?_filter_ne (fs : FS) (n m : String) (hnm : n ≠ m) :
    (fs.filter (fun p => p.1 != n)).find? (fun p => p.1 == m) =
      fs.find? (fun p => p.1 == m) := by
  induction fs with
  | nil => rfl
  | cons a t ih =>
    cases haf : (a.1 != n) with
    | true =>
      simp only [List.filter_cons, haf, if_true]
      cases ham : (a.1 == m) with
      | true => simp [List.find?, ham]
      | false => simp [List.find?, ham, ih]
    | false =>
      have han : a.1 = n := by
        have h2 : (a.1 == n) = true := by
          rwa [bne, Bool.not_eq_false'] at haf
        exact beq_iff_eq.mp h2
      have ham : (a.1 == m) = false := by
        rw [han]
        exact beq_eq_false_iff_ne.mpr hnm
      simp only [List.filter_cons, haf, Bool.false_eq_true, if_false]
      rw [ih]
      simp [List.find?, ham]

theorem fsGet_fsWrite (fs : FS) (n m : String) (c : FileContent) :
    fsGet (fsWrite fs n c) m = if n = m then some c else fsGet fs m := by
  by_cases hnm : n = m
  · subst hnm
    rw [if_pos rfl]
    unfold fsGet fsWrite
    simp [List.find?]
  · rw [if_neg hnm]
    unfold fsGet fsWrite
    have hb : ((n, c).1 == m) = false := beq_eq_false_iff_ne.mpr hnm
    simp only [List.find?, hb]
    rw [find?_filter_ne fs n m hnm]

theorem lastWrite_cons (w : String × FileContent) (t : List (String × FileContent)) (m : String) :
    lastWrite (w :: t) m =
      match lastWrite t m with
      | some c => some c
      | none => if w.1 = m then some w.2 else none := by
  unfold lastWrite
  rw [List.reverse_cons, find?_append]
  cases hf : t.reverse.find? (fun p => p.1 == m) with
  | some a => simp
  | none =>
    simp only [Option.map_none']
    by_cases hw : w.1 = m
    · rw [if_pos hw]
      simp [List.find?, beq_iff_eq.mpr hw]
    · rw [if_neg hw]
      simp [List.find?, beq_eq_false_iff_ne.mpr hw]

theorem fsGet_applyWrites (ws : List (String × FileContent)) :
    ∀ (fs : FS) (m : String),
      fsGet (applyWrites fs ws) m =
        match lastWrite ws m with
        | some c => some c
        | none => fsGet fs m := by
  induction ws with
  | nil => intro fs m; rfl
  | cons w t ih =>
    intro fs m
    show fsGet (applyWrites (fsWrite fs w.1 w.2) t) m = _
    rw [ih, lastWrite_cons, fsGet_fsWrite]
    cases hlw : lastWrite t m with
    | some c => rfl
    | none =>
      by_cases hw : w.1 = m
      · simp only [if_pos hw]
      · simp only [if_neg hw]

theorem fsGet_applyWrites_twice (ws : List (String × FileContent)) (fs : FS) (m : String) :
    fsGet (applyWrites (applyWrites fs ws) ws) m = fsGet (applyWrites fs ws) m := by
  rw [fsGet_applyWrites, fsGet_applyWrites]
  cases lastWrite ws m <;> rfl

theorem fsWrite_keys_nodup (fs : FS) (n : String) (c : FileContent)
    (h : (fs.map Prod.fst).Nodup) : ((fsWrite fs n c).map Prod.fst).Nodup := by
  unfold fsWrite
  rw [List.map_cons]
  refine List.nodup_cons.mpr ⟨?_, ?_⟩
  · intro hmem
    obtain ⟨p, hp, hpe⟩ := List.mem_map.mp hmem
    have := (List.mem_filter.mp hp).2
    rw [hpe] at this
    exact absurd rfl (bne_iff_ne.mp this)
  · exact List.Nodup.sublist (List.Sublist.map Prod.fst (List.filter_sublist fs)) h

theorem applyWrites_keys_nodup (ws : List (String × FileContent)) :
    ∀ fs : FS, (fs.map Prod.fst).Nodup → ((applyWrites fs ws).map Prod.fst).Nodup := by
  induction ws with
  | nil => intro fs h; exact h
  | cons w t ih =>
    intro fs h
    exact ih (fsWrite fs w.1 w.2) (fsWrite_keys_nodup fs w.1 w.2 h)

/-! ## Case lemmas for generate_label and download_pdf -/

theorem generateLabelCore_err (failing : List String) (tbl : Table) (sku : String)
    (o : Option String) (e : String) (hrl : recordLookup tbl sku = .error e) :
    generateLabelCore failing tbl sku o = ([], .errPage e) := by
  unfold generateLabelCore
  rw [hrl]

theorem generateLabelCore_excB (failing : List String) (tbl : Table) (sku : String)
    (o : Option String) (ms : List Row)
    (hms : recordLookup tbl sku = .ok ms)
    (hb : failing.contains (sku ++ "_barcode.png") = true) :
    generateLabelCore failing tbl sku o = ([], .exc "IOError") := by
  unfold generateLabelCore
  rw [hms]
  have hbf : (composeLabelData tbl sku o ms).barcodeFilename = sku ++ "_barcode.png" := rfl
  simp only [hbf, hb, if_true]

theorem generateLabelCore_excL (failing : List String) (tbl : Table) (sku : String)
    (o : Option String) (ms : List Row)
    (hms : recordLookup tbl sku = .ok ms)
    (hb : failing.contains (sku ++ "_barcode.png") = false)
    (hl : failing.contains (sku ++ "_label.png") = true) :
    generateLabelCore failing tbl sku o =
      ([(sku ++ "_barcode.png", .barcodePng sku)], .exc "IOError") := by
  unfold generateLabelCore
  rw [hms]
  have hbf : (composeLabelData tbl sku o ms).barcodeFilename = sku ++ "_barcode.png" := rfl
  have hlf : (composeLabelData tbl sku o ms).labelFilename = sku ++ "_label.png" := rfl
  simp only [hbf, hlf, hb, hl, Bool.false_eq_true, if_false, if_true]

theorem generateLabelCore_exc_elim (failing : List String) (tbl : Table) (sku : String)
    (o : Option String) (m : String)
    (h : (generateLabelCore failing tbl sku o).2 = .exc m) :
    failing.contains (sku ++ "_barcode.png") = true ∨
      failing.contains (sku ++ "_label.png") = true := by
  rcases hrl : recordLookup tbl sku with e | ms
  · rw [generateLabelCore_err failing tbl sku o e hrl] at h
    cases h
  · cases hb : failing.contains (sku ++ "_barcode.png") with
    | true => exact Or.inl rfl
    | false =>
      cases hl : failing.contains (sku ++ "_label.png") with
      | true => exact Or.inr rfl
      | false =>
        rw [generateLabelCore_ok failing tbl sku o ms hrl hb hl] at h
        cases h

/-! ## C6: filenames keyed by the SKU alone; regeneration overwrites -/

theorem downloadPdfCore_names (failing : List String) (tbl : Table) (sku mrp : String) :
    ∀ p ∈ (downloadPdfCore failing tbl sku mrp).1,
      p.1 = sku ++ "_barcode.png" ∨ p.1 = sku ++ "_label.png" ∨ p.1 = sku ++ "_label.pdf" := by
  simp only [downloadPdfCore]
  rcases hrl : recordLookup tbl sku with e | ms
  · rw [generateLabelCore_err failing tbl sku _ e hrl]
    intro p hp
    exact absurd hp (List.not_mem_nil p)
  · cases hb : failing.contains (sku ++ "_barcode.png") with
    | true =>
      rw [generateLabelCore_excB failing tbl sku _ ms hrl hb]
      intro p hp
      exact absurd hp (List.not_mem_nil p)
    | false =>
      cases hl : failing.contains (sku ++ "_label.png") with
      | true =>
        rw [generateLabelCore_excL failing tbl sku _ ms hrl hb hl]
        intro p hp
        rcases List.mem_singleton.mp hp with h
        exact Or.inl (by rw [h])
      | false =>
        rw [generateLabelCore_ok failing tbl sku _ ms hrl hb hl]
        cases hp : failing.contains (sku ++ "_label.pdf") with
        | true =>
          simp only [hp, if_true]
          intro p hmem
          rcases List.mem_cons.mp hmem with h | hmem2
          · exact Or.inl (by rw [h])
          · rcases List.mem_singleton.mp hmem2 with h
            exact Or.inr (Or.inl (by rw [h]))
        | false =>
          simp only [hp, Bool.false_eq_true, if_false]
          intro p hmem
          rcases List.mem_append.mp hmem with hmem1 | hmem2
          · rcases List.mem_cons.mp hmem1 with h | hmem3
            · exact Or.inl (by rw [h])
            · rcases List.mem_singleton.mp hmem3 with h
              exact Or.inr (Or.inl (by rw [h]))
          · rcases List.mem_singleton.mp hmem2 with h
            exact Or.inr (Or.inr (by rw [h]))

/-- C6: every file download_pdf writes has one of the three names derived from
the SKU alone, so composing the same SKU twice hits the same paths: the second
run leaves the directory exactly as readable as the first (last write wins),
returns the same response, and a directory without duplicate filenames never
acquires one. -/
theorem C6_idempotent_overwrite (failing : List String) (fs : FS) (tbl : Table)
    (sku mrp : String) :
    (∀ p ∈ (downloadPdfCore failing tbl sku mrp).1,
      p.1 = sku ++ "_barcode.png" ∨ p.1 = sku ++ "_label.png" ∨ p.1 = sku ++ "_label.pdf") ∧
    (∀ n, fsGet (downloadPdfFS failing (downloadPdfFS failing fs tbl sku mrp).1 tbl sku mrp).1 n
      = fsGet (downloadPdfFS failing fs tbl sku mrp).1 n) ∧
    (downloadPdfFS failing (downloadPdfFS failing fs tbl sku mrp).1 tbl sku mrp).2
      = (downloadPdfFS failing fs tbl sku mrp).2 ∧
    ((fs.map Prod.fst).Nodup →
      (((downloadPdfFS failing fs tbl sku mrp).1).map Prod.fst).Nodup) := by
  refine ⟨downloadPdfCore_names failing tbl sku mrp, ?_, rfl, ?_⟩
  · intro n
    exact fsGet_applyWrites_twice (downloadPdfCore failing tbl sku mrp).1 fs n
  · intro h
    exact applyWrites_keys_nodup (downloadPdfCore failing tbl sku mrp).1 fs h

/-- Witness for C6: generating twice for SKU "A" leaves the directory as after
one run, and the run writes only the three SKU-keyed names. -/
theorem C6_idempotent_overwrite_witness :
    (∀ p ∈ (downloadPdfCore [] tblC3W "A" "NA").1,
      p.1 = "A" ++ "_barcode.png" ∨ p.1 = "A" ++ "_label.png" ∨ p.1 = "A" ++ "_label.pdf") ∧
    ((((downloadPdfFS [] [] tblC3W "A" "NA").1).map Prod.fst).Nodup) :=
  ⟨(C6_idempotent_overwrite [] [] tblC3W "A" "NA").1,
   (C6_idempotent_overwrite [] [] tblC3W "A" "NA").2.2.2 List.nodup_nil⟩

/-! ## C8: the download endpoint -/

theorem generateLabelCore_errPage_elim (failing : List String) (tbl : Table) (sku : String)
    (o : Option String) (e : String)
    (h : (generateLabelCore failing tbl sku o).2 = .errPage e) :
    generateLabelCore failing tbl sku o = ([], .errPage e) ∧
      recordLookup tbl sku = .error e := by
  rcases hrl : recordLookup tbl sku with e' | ms
  · rw [generateLabelCore_err failing tbl sku o e' hrl] at h
    injection h with he
    subst he
    exact ⟨generateLabelCore_err failing tbl sku o e' hrl, rfl⟩
  · cases hb : failing.contains (sku ++ "_barcode.png") with
    | true =>
      rw [generateLabelCore_excB failing tbl sku o ms hrl hb] at h
      cases h
    | false =>
      cases hl : failing.contains (sku ++ "_label.png") with
      | true =>
        rw [generateLabelCore_excL failing tbl sku o ms hrl hb hl] at h
        cases h
      | false =>
        rw [generateLabelCore_ok failing tbl sku o ms hrl hb hl] at h
        cases h

/-- C8: a path MRP of "NA" is treated as no override; the endpoint re-runs the
full label composition (its writes happen again, followed by the PDF write),
wraps the label image at full scale on a 288×214 page returned as an
attachment, and fails — returning the composition error — exactly when the
composition failed. -/
theorem C8_download_endpoint (tbl : Table) (sku mrp : String) (fs : FS) :
    (∀ e, generateLabel tbl sku (if mrp = "NA" then none else some mrp) = .errPage e →
      downloadPdfFS [] fs tbl sku mrp = (fs, .page ("Error: " ++ e))) ∧
    (∀ d, generateLabel tbl sku (if mrp = "NA" then none else some mrp) = .okData d →
      downloadPdfCore [] tbl sku mrp =
        ((generateLabelCore [] tbl sku (if mrp = "NA" then none else some mrp)).1 ++
          [(sku ++ "_label.pdf", .pdfDoc 288 214 0 0 288 214 d.labelFilename)],
         .attachment (sku ++ "_label.pdf"))) ∧
    ((∃ m, (downloadPdfCore [] tbl sku mrp).2 = .page m) ↔
      (∃ e, generateLabel tbl sku (if mrp = "NA" then none else some mrp) = .errPage e)) := by
  refine ⟨?_, ?_, ?_, ?_⟩
  · intro e he
    have hcore := (generateLabelCore_errPage_elim [] tbl sku _ e he).1
    unfold downloadPdfFS
    simp only [downloadPdfCore]
    rw [hcore]
    rfl
  · intro d hd
    obtain ⟨ms, hrl, hde⟩ := generateLabel_ok_elim tbl sku _ d hd
    have hcore := generateLabelCore_ok [] tbl sku
      (if mrp = "NA" then none else some mrp) ms hrl rfl rfl
    simp only [downloadPdfCore]
    rw [hcore]
    subst hde
    rfl
  · intro ⟨m, hm⟩
    simp only [downloadPdfCore] at hm
    rcases hrl : recordLookup tbl sku with e | ms
    · refine ⟨e, ?_⟩
      show (generateLabelCore [] tbl sku _).2 = _
      rw [generateLabelCore_err [] tbl sku _ e hrl]
    · rw [generateLabelCore_ok [] tbl sku
        (if mrp = "NA" then none else some mrp) ms hrl rfl rfl] at hm
      cases hm
  · intro ⟨e, he⟩
    have hcore := (generateLabelCore_errPage_elim [] tbl sku _ e he).1
    refine ⟨"Error: " ++ e, ?_⟩
    simp only [downloadPdfCore]
    rw [hcore]

/-- Witness for C8: composing SKU "A" with no override ("NA") succeeds and the
endpoint appends the PDF write to the composition's own writes. -/
theorem C8_download_endpoint_witness :
    downloadPdfCore [] tblC3W "A" "NA" =
      ((generateLabelCore [] tblC3W "A" (if "NA" = "NA" then none else some "NA")).1 ++
        [("A" ++ "_label.pdf", .pdfDoc 288 214 0 0 288 214
          (composeLabelData tblC3W "A" none [[("sku", Cell.str "A")]]).labelFilename)],
       .attachment ("A" ++ "_label.pdf")) :=
  (C8_download_endpoint tblC3W "A" "NA" []).2.1 _ (by decide)

/-! ## C9: which errors come back as strings, and which are raised -/

theorem generateLabelCore_no_exc (failing : List String) (tbl : Table) (sku : String)
    (o : Option String)
    (hb : failing.contains (sku ++ "_barcode.png") = false)
    (hl : failing.contains (sku ++ "_label.png") = false) :
    ∀ m, (generateLabelCore failing tbl sku o).2 ≠ .exc m := by
  intro m h
  rcases generateLabelCore_exc_elim failing tbl sku o m h with hc | hc
  · rw [hb] at hc; cases hc
  · rw [hl] at hc; cases hc

theorem recordLookup_error_msg (tbl : Table) (sku e : String)
    (h : recordLookup tbl sku = .error e) :
    e = "Excel file or SKU column missing." ∨ e = "❌ SKU not found!" := by
  simp only [recordLookup] at h
  by_cases h1 : (tbl.rows.isEmpty || ((mkColMap tbl.headers).lookup "sku").isNone) = true
  · rw [if_pos h1] at h
    injection h with he
    exact Or.inl he.symm
  · rw [if_neg h1] at h
    by_cases h2 : (tbl.rows.filter (fun r =>
        pyUpper (skuCellStr r (((mkColMap tbl.headers).lookup "sku").getD ""))
          == pyUpper sku)).isEmpty = true
    · rw [if_pos h2] at h
      injection h with he
      exact Or.inr he.symm
    · rw [if_neg h2] at h
      cases h

theorem downloadPdf_fault_elim (failing : List String) (fs : FS) (tbl : Table)
    (sku mrp m : String)
    (h : (downloadPdfFS failing fs tbl sku mrp).2 = .fault m) :
    failing.contains (sku ++ "_barcode.png") = true ∨
    failing.contains (sku ++ "_label.png") = true ∨
    failing.contains (sku ++ "_label.pdf") = true := by
  have hc : (downloadPdfCore failing tbl sku mrp).2 = .fault m := h
  simp only [downloadPdfCore] at hc
  rcases hrl : recordLookup tbl sku with e | ms
  · rw [generateLabelCore_err failing tbl sku _ e hrl] at hc
    cases hc
  · cases hb : failing.contains (sku ++ "_barcode.png") with
    | true => exact Or.inl rfl
    | false =>
      cases hl : failing.contains (sku ++ "_label.png") with
      | true => exact Or.inr (Or.inl rfl)
      | false =>
        rw [generateLabelCore_ok failing tbl sku _ ms hrl hb hl] at hc
        cases hp : failing.contains (sku ++ "_label.pdf") with
        | true => exact Or.inr (Or.inr rfl)
        | false =>
          simp only [hp, Bool.false_eq_true, if_false] at hc
          cases hc

theorem downloadPdf_no_fault (failing : List String) (fs : FS) (tbl : Table)
    (sku mrp : String)
    (hb : failing.contains (sku ++ "_barcode.png") = false)
    (hl : failing.contains (sku ++ "_label.png") = false)
    (hp : failing.contains (sku ++ "_label.pdf") = false) :
    ∀ m, (downloadPdfFS failing fs tbl sku mrp).2 ≠ .fault m := by
  intro m h
  have hc : (downloadPdfCore failing tbl sku mrp).2 = .fault m := h
  simp only [downloadPdfCore] at hc
  rcases hrl : recordLookup tbl sku with e | ms
  · rw [generateLabelCore_err failing tbl sku _ e hrl] at hc
    cases hc
  · rw [generateLabelCore_ok failing tbl sku _ ms hrl hb hl] at hc
    simp only [hp, Bool.false_eq_true, if_false] at hc
    cases hc

theorem indexPost_fault_elim (failing : List String) (fs : FS) (tbl : Table)
    (skuForm mrpForm : String) (g : Bool) (m : String)
    (h : (indexPost failing fs tbl skuForm mrpForm g).2 = .fault m) :
    failing.contains (pyStrip skuForm ++ "_barcode.png") = true ∨
    failing.contains (pyStrip skuForm ++ "_label.png") = true := by
  simp only [indexPost] at h
  by_cases h1 : pyStrip skuForm = ""
  · rw [if_pos h1] at h
    cases h
  · rw [if_neg h1] at h
    by_cases h2 : (tbl.rows.isEmpty || ((mkColMap tbl.headers).lookup "sku").isNone) = true
    · rw [if_pos h2] at h
      cases h
    · rw [if_neg h2] at h
      by_cases h3 : (tbl.rows.filter (fun r =>
          pyUpper (skuCellStr r (((mkColMap tbl.headers).lookup "sku").getD ""))
            == pyUpper (pyStrip skuForm))).isEmpty = true
      · rw [if_pos h3] at h
        cases h
      · rw [if_neg h3] at h
        cases g with
        | false => cases h
        | true =>
          rcases hgen : generateLabelFS failing fs tbl (pyStrip skuForm)
              (if mrpForm = "" then none else some mrpForm) with ⟨fs1, r⟩
          rw [hgen] at h
          cases r with
          | errPage e => cases h
          | okData d => cases h
          | exc m2 =>
            have hcg : (generateLabelCore failing tbl (pyStrip skuForm)
                (if mrpForm = "" then none else some mrpForm)).2 = .exc m2 := by
              have h2g : (generateLabelFS failing fs tbl (pyStrip skuForm)
                  (if mrpForm = "" then none else some mrpForm)).2 = .exc m2 := by
                rw [hgen]
              exact h2g
            exact generateLabelCore_exc_elim failing tbl (pyStrip skuForm) _ m2 hcg

theorem indexPost_no_fault (failing : List String) (fs : FS) (tbl : Table)
    (skuForm mrpForm : String) (g : Bool)
    (hb : failing.contains (pyStrip skuForm ++ "_barcode.png") = false)
    (hl : failing.contains (pyStrip skuForm ++ "_label.png") = false) :
    ∀ m, (indexPost failing fs tbl skuForm mrpForm g).2 ≠ .fault m := by
  intro m h
  rcases indexPost_fault_elim failing fs tbl skuForm mrpForm g m h with hc | hc
  · rw [hb] at hc; cases hc
  · rw [hl] at hc; cases hc

/-- C9 counterexample: when the barcode write raises an I/O error, both
endpoints propagate the exception — Flask's generic fault page — instead of
returning a human-readable error string attached to the response. -/
theorem C9_error_strings_counterexample :
    downloadPdfFS ["A_barcode.png"] [] tblC9X "A" "NA" = ([], .fault "IOError") ∧
    indexPost ["A_barcode.png"] [] tblC9X "A" "" true = ([], .fault "IOError") :=
  ⟨by decide, by decide⟩

/-- C9 (amended): configuration-absent and SKU-not-found errors are returned
as human-readable strings attached to the response; but an I/O failure while
writing an output file is not caught anywhere — it is raised to the generic
fault page, and a fault arises exactly from such a failing write. -/
theorem C9_error_strings (failing : List String) (fs : FS) (tbl : Table)
    (sku mrp skuForm mrpForm : String) (g : Bool) :
    ((failing.contains (sku ++ "_barcode.png") = false ∧
      failing.contains (sku ++ "_label.png") = false ∧
      failing.contains (sku ++ "_label.pdf") = false) →
      ∀ m, (downloadPdfFS failing fs tbl sku mrp).2 ≠ .fault m) ∧
    (∀ m, (downloadPdfFS failing fs tbl sku mrp).2 = .fault m →
      failing.contains (sku ++ "_barcode.png") = true ∨
      failing.contains (sku ++ "_label.png") = true ∨
      failing.contains (sku ++ "_label.pdf") = true) ∧
    (∀ e, recordLookup tbl sku = .error e →
      downloadPdfFS failing fs tbl sku mrp = (fs, .page ("Error: " ++ e)) ∧
      (e = "Excel file or SKU column missing." ∨ e = "❌ SKU not found!")) ∧
    ((failing.contains (pyStrip skuForm ++ "_barcode.png") = false ∧
      failing.contains (pyStrip skuForm ++ "_label.png") = false) →
      ∀ m, (indexPost failing fs tbl skuForm mrpForm g).2 ≠ .fault m) ∧
    (∀ m, (indexPost failing fs tbl skuForm mrpForm g).2 = .fault m →
      failing.contains (pyStrip skuForm ++ "_barcode.png") = true ∨
      failing.contains (pyStrip skuForm ++ "_label.png") = true) := by
  refine ⟨?_, ?_, ?_, ?_, ?_⟩
  · intro ⟨hb, hl, hp⟩
    exact downloadPdf_no_fault failing fs tbl sku mrp hb hl hp
  · intro m hm
    exact downloadPdf_fault_elim failing fs tbl sku mrp m hm
  · intro e he
    refine ⟨?_, recordLookup_error_msg tbl sku e he⟩
    unfold downloadPdfFS
    simp only [downloadPdfCore]
    rw [generateLabelCore_err failing tbl sku _ e he]
    rfl
  · intro ⟨hb, hl⟩
    exact indexPost_no_fault failing fs tbl skuForm mrpForm g hb hl
  · intro m hm
    exact indexPost_fault_elim failing fs tbl skuForm mrpForm g m hm

/-- Witness for C9 (amended): looking an absent SKU up returns the not-found
string on the error page even with unrelated failing writes configured. -/
theorem C9_error_strings_witness :
    downloadPdfFS ["x"] [] tblC3W "ZZZ" "NA" =
      ([], .page ("Error: " ++ "❌ SKU not found!")) ∧
    ("❌ SKU not found!" = "Excel file or SKU column missing." ∨
      "❌ SKU not found!" = "❌ SKU not found!") :=
  (C9_error_strings ["x"] [] tblC3W "ZZZ" "NA" "A" "" false).2.2.1
    "❌ SKU not found!" (by decide)

end Barcode
